import Mathlib

/-!
Shallow embedding of the relay connection-wrapping layer
(package `relay`: `tcpConn`, `udpConn`, `readResponse`, `bindConn`,
`bindUDPConn`).

Bytes are modelled as `Nat` (values 0..255 on the wire).  The underlying
`net.Conn` transport is modelled as an explicit state: a list of bytes
available to read, a trace of the writes the transport has observed
(one list entry per transport `Write` call), and a script of outcomes
for the next transport writes (so that failing and partial transport
writes can be expressed).  All wrapper operations are state-passing
functions from a connection state to a result plus a new state.
-/

/-- Errors that the embedded code can produce.  `transport c` stands for an
arbitrary error returned by the underlying transport write, tagged with a
numeric identity `c` so distinct transport errors stay distinguishable. -/
inductive GoErr where
  | eof : GoErr
  | badVersion : GoErr
  | statusErr (code : Nat) (text : String) : GoErr
  | msgTooLarge : GoErr
  | transport (code : Nat) : GoErr
deriving DecidableEq, Repr

/-- Rendering of an error as a Go error string.  Only the `statusErr`
rendering is fixed by the source (`fmt.Errorf("%d %s", resp.Status,
xrelay.StatusText(resp.Status))`); the others are the literal messages of
the corresponding Go errors. -/
def GoErr.render : GoErr → String
  | .eof => "EOF"
  | .badVersion => "bad version"
  | .statusErr code text => toString code ++ " " ++ text
  | .msgTooLarge => "write: data maximum exceeded"
  | .transport code => "transport error " ++ toString code

/-- The protocol version constant `relay.Version1`. -/
def Version1 : Nat := 1

/-- The status constant `relay.StatusOK`. -/
def StatusOK : Nat := 0

/-- The constant `math.MaxUint16`. -/
def maxUint16 : Nat := 65535

/-- State of the underlying `net.Conn` transport.
`input` is the byte stream still to be read; `output` records each
transport write as one entry; `writeScript` scripts the outcomes of the
next transport writes (`none`: full success; `some (k, c)`: the transport
accepts only the first `k` bytes and returns error `transport c` — per the
`io.Writer` contract a short write comes with a non-nil error); `respReads`
counts how many times `readResponse` ran against this transport;
`nativeLocal`/`nativeRemote` are the native addresses of the transport
socket (addresses are modelled as strings). -/
structure Transport where
  input : List Nat
  output : List (List Nat)
  writeScript : List (Option (Nat × Nat))
  respReads : Nat
  nativeLocal : String
  nativeRemote : String
deriving DecidableEq, Repr

/-- An underlying transport write (`c.Conn.Write(b)`): returns the byte
count accepted and an error, appends the accepted bytes to the output
trace. -/
def connWrite (t : Transport) (b : List Nat) : (Nat × Option GoErr) × Transport :=
  match t.writeScript with
  | [] => ((b.length, none), { t with output := t.output ++ [b] })
  | none :: rest =>
      ((b.length, none), { t with output := t.output ++ [b], writeScript := rest })
  | some (k, c) :: rest =>
      let k0 := min k b.length
      ((k0, some (.transport c)),
       { t with output := t.output ++ [b.take k0], writeScript := rest })

/-- An underlying transport read (`c.Conn.Read(b)`) into a buffer of
length `blen`: returns up to `blen` bytes, or `eof` when the stream is
exhausted. -/
def connRead (t : Transport) (blen : Nat) : (List Nat × Option GoErr) × Transport :=
  match t.input with
  | [] => (([], some .eof), t)
  | _ =>
      let k := min blen t.input.length
      ((t.input.take k, none), { t with input := t.input.drop k })

/-- The `io.ReadFull(r, b)` pattern with `len(b) = k`: blocks until exactly
`k` bytes are read; a short stream yields the bytes present and an
end-of-stream error. -/
def readFull (t : Transport) (k : Nat) : (List Nat × Option GoErr) × Transport :=
  if k ≤ t.input.length then
    ((t.input.take k, none), { t with input := t.input.drop k })
  else
    ((t.input, some .eof), { t with input := [] })

/-- The function `readResponse(r io.Reader) error`.  The fixed-size
response record read by the collaborator `relay.Response.ReadFrom` is,
per the external-interface description, `[1 byte: version][1 byte:
status]`; the status-code-to-text lookup `xrelay.StatusText` is the
collaborator parameter `statusText`.  Each invocation bumps the
transport's `respReads` instrumentation counter. -/
def readResponse (statusText : Nat → String) (t : Transport) :
    Option GoErr × Transport :=
  match t.input with
  | v :: s :: rest =>
      if v ≠ Version1 then
        (some .badVersion, { t with input := rest, respReads := t.respReads + 1 })
      else if s ≠ StatusOK then
        (some (.statusErr s (statusText s)),
         { t with input := rest, respReads := t.respReads + 1 })
      else
        (none, { t with input := rest, respReads := t.respReads + 1 })
  | _ => (some .eof, { t with input := [], respReads := t.respReads + 1 })

/-- The `binary.BigEndian.PutUint16(bb, uint16(n))` encoding: two bytes,
big-endian, of `n` truncated to 16 bits. -/
def putUint16 (n : Nat) : List Nat := [n % 65536 / 256, n % 256]

/-- The `binary.BigEndian.Uint16` decoding of two bytes. -/
def getUint16 (b0 b1 : Nat) : Nat := b0 * 256 + b1

/-- The client stream wrapper `tcpConn`: the transport, the optional
pending-header buffer `wbuf` (`none` models a nil `*bytes.Buffer`,
`some l` a buffer holding bytes `l`), and the `sync.Once` state `once`
(`true` once the one-time block has fired). -/
structure tcpConn where
  conn : Transport
  wbuf : Option (List Nat)
  once : Bool
deriving DecidableEq, Repr

/-- The client datagram wrapper `udpConn`; same fields as `tcpConn`. -/
structure udpConn where
  conn : Transport
  wbuf : Option (List Nat)
  once : Bool
deriving DecidableEq, Repr

/-- The method `(c *tcpConn).Read(b)` with `len(b) = blen`.  The
`c.once.Do(...)` block fires on the first call; its closure runs
`readResponse` only when `c.wbuf != nil`.  On a check error the method
returns that error with no bytes; otherwise it delegates to the
transport read. -/
def tcpConn.Read (statusText : Nat → String) (c : tcpConn) (blen : Nat) :
    (List Nat × Option GoErr) × tcpConn :=
  if c.once = false ∧ c.wbuf ≠ none then
    match readResponse statusText c.conn with
    | (some e, t) => (([], some e), { c with conn := t, once := true })
    | (none, t) =>
        let r := connRead t blen
        (r.1, { c with conn := r.2, once := true })
  else
    let r := connRead c.conn blen
    (r.1, { c with conn := r.2, once := true })

/-- The method `(c *tcpConn).Write(b)`: `n` is forced to `len(b)` up
front; when `wbuf` is non-nil and non-empty the input is appended to the
cached header, the combined buffer is written as a single transport
write, and `wbuf.Reset()` empties the buffer unconditionally; otherwise
the input is written directly. -/
def tcpConn.Write (c : tcpConn) (b : List Nat) :
    (Nat × Option GoErr) × tcpConn :=
  match c.wbuf with
  | some w =>
      if 0 < w.length then
        let r := connWrite c.conn (w ++ b)
        ((b.length, r.1.2), { c with conn := r.2, wbuf := some [] })
      else
        let r := connWrite c.conn b
        ((b.length, r.1.2), { c with conn := r.2 })
  | none =>
      let r := connWrite c.conn b
      ((b.length, r.1.2), { c with conn := r.2 })

/-- The framed read shared verbatim by `(c *udpConn).Read` (after the
once-block) and `(c *bindUDPConn).Read`: read a 2-byte big-endian length
header, then the frame.  When the caller's buffer (length `blen`) is at
least the frame length the frame is read straight into it; otherwise the
frame is read into a pooled scratch buffer of the frame length and
`copy(b, buf)` moves the first `blen` bytes out (bytes of the scratch
buffer past the read prefix are unspecified; modelled as 0). -/
def udpFramedRead (t : Transport) (blen : Nat) :
    (List Nat × Option GoErr) × Transport :=
  let r1 := readFull t 2
  match r1.1.2 with
  | some e => (([], some e), r1.2)
  | none =>
      let dlen := getUint16 (r1.1.1.headD 0) ((r1.1.1.drop 1).headD 0)
      if dlen ≤ blen then
        readFull r1.2 dlen
      else
        let r := readFull r1.2 dlen
        let buf := r.1.1 ++ List.replicate (dlen - r.1.1.length) 0
        ((buf.take blen, r.1.2), r.2)

/-- The method `(c *udpConn).Read(b)`: the same once-guarded handshake
check as `tcpConn.Read`, then the framed read. -/
def udpConn.Read (statusText : Nat → String) (c : udpConn) (blen : Nat) :
    (List Nat × Option GoErr) × udpConn :=
  if c.once = false ∧ c.wbuf ≠ none then
    match readResponse statusText c.conn with
    | (some e, t) => (([], some e), { c with conn := t, once := true })
    | (none, t) =>
        let r := udpFramedRead t blen
        (r.1, { c with conn := r.2, once := true })
  else
    let r := udpFramedRead c.conn blen
    (r.1, { c with conn := r.2, once := true })

/-- The method `(c *udpConn).Write(b)`: rejects payloads over
`math.MaxUint16`, sets `n = len(b)`, then either coalesces
header + length prefix + payload into the cached buffer and drains it
with `wbuf.WriteTo(c.Conn)` (one transport write; on a short write the
buffer keeps the unwritten tail, per `bytes.Buffer.WriteTo`), or writes
the 2-byte prefix and the payload as two transport writes, returning the
second write's count and error. -/
def udpConn.Write (c : udpConn) (b : List Nat) :
    (Nat × Option GoErr) × udpConn :=
  if maxUint16 < b.length then
    ((0, some .msgTooLarge), c)
  else
    match c.wbuf with
    | some w =>
        if 0 < w.length then
          let frame := w ++ putUint16 b.length ++ b
          let r := connWrite c.conn frame
          ((b.length, r.1.2),
           { c with conn := r.2, wbuf := some (frame.drop r.1.1) })
        else
          let r1 := connWrite c.conn (putUint16 b.length)
          match r1.1.2 with
          | some e => ((b.length, some e), { c with conn := r1.2 })
          | none =>
              let r2 := connWrite r1.2 b
              ((r2.1.1, r2.1.2), { c with conn := r2.2 })
    | none =>
        let r1 := connWrite c.conn (putUint16 b.length)
        match r1.1.2 with
        | some e => ((b.length, some e), { c with conn := r1.2 })
        | none =>
            let r2 := connWrite r1.2 b
            ((r2.1.1, r2.1.2), { c with conn := r2.2 })

/-- The accept-side stream wrapper `bindConn`: tunnel-assigned addresses
and attached metadata fixed at wrap time (metadata modelled as an opaque
string). -/
structure bindConn where
  conn : Transport
  localAddr : String
  remoteAddr : String
  md : String
deriving DecidableEq, Repr

/-- The accessor `(c *bindConn).LocalAddr()`. -/
def bindConn.LocalAddr (c : bindConn) : String := c.localAddr

/-- The accessor `(c *bindConn).RemoteAddr()`. -/
def bindConn.RemoteAddr (c : bindConn) : String := c.remoteAddr

/-- The accessor `(c *bindConn).Metadata()`. -/
def bindConn.Metadata (c : bindConn) : String := c.md

/-- The accept-side datagram wrapper `bindUDPConn`. -/
structure bindUDPConn where
  conn : Transport
  localAddr : String
  remoteAddr : String
  md : String
deriving DecidableEq, Repr

/-- The method `(c *bindUDPConn).Read(b)`: the framed read, with no
handshake deferral. -/
def bindUDPConn.Read (c : bindUDPConn) (blen : Nat) :
    (List Nat × Option GoErr) × bindUDPConn :=
  let r := udpFramedRead c.conn blen
  (r.1, { c with conn := r.2 })

/-- The method `(c *bindUDPConn).Write(b)`: rejects payloads over
`math.MaxUint16`, builds `[2-byte length][payload]` in a pooled buffer,
and ends with `return c.Conn.Write(buf)` — so the returned count and
error are the transport write's own, taken over the framed buffer. -/
def bindUDPConn.Write (c : bindUDPConn) (b : List Nat) :
    (Nat × Option GoErr) × bindUDPConn :=
  if maxUint16 < b.length then
    ((0, some .msgTooLarge), c)
  else
    let r := connWrite c.conn (putUint16 b.length ++ b)
    (r.1, { c with conn := r.2 })

/-- The method `(c *bindUDPConn).ReadFrom(b)`: the framed read, with the
tunnel-assigned remote address reported as the sender. -/
def bindUDPConn.ReadFrom (c : bindUDPConn) (blen : Nat) :
    (List Nat × String × Option GoErr) × bindUDPConn :=
  let r := c.Read blen
  ((r.1.1, c.remoteAddr, r.1.2), r.2)

/-- The method `(c *bindUDPConn).WriteTo(b, addr)`: delegates to `Write`,
ignoring the address argument. -/
def bindUDPConn.WriteTo (c : bindUDPConn) (b : List Nat) (addr : String) :
    (Nat × Option GoErr) × bindUDPConn :=
  c.Write b

/-- The accessor `(c *bindUDPConn).LocalAddr()`. -/
def bindUDPConn.LocalAddr (c : bindUDPConn) : String := c.localAddr

/-- The accessor `(c *bindUDPConn).RemoteAddr()`. -/
def bindUDPConn.RemoteAddr (c : bindUDPConn) : String := c.remoteAddr

/-- The accessor `(c *bindUDPConn).Metadata()`. -/
def bindUDPConn.Metadata (c : bindUDPConn) : String := c.md

theorem putUint16_length (n : Nat) : (putUint16 n).length = 2 := rfl

theorem getUint16_putUint16 {n : Nat} (h : n ≤ maxUint16) :
    getUint16 (n % 65536 / 256) (n % 256) = n := by
  simp only [getUint16, maxUint16] at *
  omega

theorem readResponse_respReads (statusText : Nat → String) (t : Transport) :
    (readResponse statusText t).2.respReads = t.respReads + 1 := by
  unfold readResponse
  split
  · split
    · rfl
    · split <;> rfl
  · rfl

theorem connRead_respReads (t : Transport) (blen : Nat) :
    (connRead t blen).2.respReads = t.respReads := by
  unfold connRead
  split <;> rfl

theorem readFull_respReads (t : Transport) (k : Nat) :
    (readFull t k).2.respReads = t.respReads := by
  unfold readFull
  split <;> rfl

theorem udpFramedRead_respReads (t : Transport) (blen : Nat) :
    (udpFramedRead t blen).2.respReads = t.respReads := by
  have h2 := readFull_respReads t 2
  unfold udpFramedRead
  rcases hr : readFull t 2 with ⟨⟨bb, e⟩, t1⟩
  rw [hr] at h2
  cases e
  · dsimp only
    split
    · rw [readFull_respReads]
      exact h2
    · dsimp only
      rw [readFull_respReads]
      exact h2
  · exact h2

theorem readFull_append (t : Transport) (pre post : List Nat)
    (h : t.input = pre ++ post) :
    readFull t pre.length = ((pre, none), { t with input := post }) := by
  unfold readFull
  rw [h]
  rw [if_pos (by simp)]
  rw [List.take_left, List.drop_left]

theorem udpFramedRead_frame (frame rest : List Nat) (t : Transport)
    (hin : t.input = putUint16 frame.length ++ (frame ++ rest))
    (hL : frame.length ≤ maxUint16) (blen : Nat) :
    udpFramedRead t blen =
      ((frame.take (min blen frame.length), none), { t with input := rest }) := by
  have h2 : readFull t 2 = ((putUint16 frame.length, none), { t with input := frame ++ rest }) := by
    have h := readFull_append t (putUint16 frame.length) (frame ++ rest) hin
    rwa [putUint16_length] at h
  have h3 : readFull { t with input := frame ++ rest } frame.length
      = ((frame, none), { t with input := rest }) :=
    readFull_append _ frame rest rfl
  unfold udpFramedRead
  rw [h2]
  simp only [putUint16, List.headD, List.drop]
  rw [getUint16_putUint16 hL]
  split
  case _ hle =>
    rw [h3, Nat.min_eq_right hle, List.take_length]
  case _ hgt =>
    rw [h3]
    have hblen : blen < frame.length := by omega
    rw [Nat.min_eq_left (Nat.le_of_lt hblen)]
    simp

/-- C2: a successful datagram write of a payload of at most 65535 bytes
reports the payload length on `udpConn`, but `bindUDPConn.Write` ends in
`return c.Conn.Write(buf)` over the framed buffer, so a fully successful
write there reports the payload length plus the 2-byte prefix: for
`p = [1, 2, 3]` the datagram relay connection returns `n = 3` while the
bound datagram connection returns `n = 5`, contradicting the claim for
the bound variant. -/
theorem c2_write_count_eval :
    (udpConn.Write ⟨⟨[], [], [], 0, "L", "R"⟩, none, true⟩ [1, 2, 3]).1 = (3, none) ∧
    (bindUDPConn.Write ⟨⟨[], [], [], 0, "L", "R"⟩, "tl", "tr", "md"⟩ [1, 2, 3]).1
      = (5, none) := by
  constructor
  · rfl
  · rfl

/-- C4: a datagram write of a payload longer than 65535 bytes fails with
the MessageTooLarge error and leaves the whole connection state — the
transport output trace and the pending header included — unchanged, on
both the datagram relay connection and the bound datagram connection. -/
theorem c4_msg_too_large (b : List Nat) (hb : maxUint16 < b.length)
    (t : Transport) (ow : Option (List Nat)) (o : Bool) (l r m : String) :
    udpConn.Write ⟨t, ow, o⟩ b = ((0, some .msgTooLarge), ⟨t, ow, o⟩) ∧
    bindUDPConn.Write ⟨t, l, r, m⟩ b = ((0, some .msgTooLarge), ⟨t, l, r, m⟩) := by
  constructor
  · unfold udpConn.Write
    rw [if_pos hb]
  · unfold bindUDPConn.Write
    rw [if_pos hb]

theorem c4_msg_too_large_witness :
    maxUint16 < (List.replicate 65536 0).length ∧
    udpConn.Write ⟨⟨[], [], [], 0, "L", "R"⟩, some [7], false⟩ (List.replicate 65536 0)
      = ((0, some .msgTooLarge), ⟨⟨[], [], [], 0, "L", "R"⟩, some [7], false⟩) ∧
    bindUDPConn.Write ⟨⟨[], [], [], 0, "L", "R"⟩, "tl", "tr", "md"⟩ (List.replicate 65536 0)
      = ((0, some .msgTooLarge), ⟨⟨[], [], [], 0, "L", "R"⟩, "tl", "tr", "md"⟩) := by
  have hb : maxUint16 < (List.replicate 65536 0).length := by
    rw [List.length_replicate]
    decide
  have h := c4_msg_too_large (List.replicate 65536 0) hb
    ⟨[], [], [], 0, "L", "R"⟩ (some [7]) false "tl" "tr" "md"
  exact ⟨hb, h.1, h.2⟩

/-- C7: the protocol response reader on record `{version := v, status := s}`:
when `v` differs from the supported constant it fails with the BadVersion
error, with a result that does not depend on `s`; when `v` matches and
`s` is not OK it fails with the status error whose rendering is exactly
the code, a space, and the collaborator-supplied status text; when both
match it returns no error. -/
theorem c7_read_response (statusText : Nat → String) (v s : Nat)
    (rest : List Nat) (out : List (List Nat))
    (ws : List (Option (Nat × Nat))) (nR : Nat) (l r : String) :
    (v ≠ Version1 →
      readResponse statusText ⟨v :: s :: rest, out, ws, nR, l, r⟩
        = (some .badVersion, ⟨rest, out, ws, nR + 1, l, r⟩)) ∧
    (v = Version1 → s ≠ StatusOK →
      readResponse statusText ⟨v :: s :: rest, out, ws, nR, l, r⟩
        = (some (.statusErr s (statusText s)), ⟨rest, out, ws, nR + 1, l, r⟩) ∧
      (GoErr.statusErr s (statusText s)).render
        = toString s ++ " " ++ statusText s) ∧
    (v = Version1 → s = StatusOK →
      readResponse statusText ⟨v :: s :: rest, out, ws, nR, l, r⟩
        = (none, ⟨rest, out, ws, nR + 1, l, r⟩)) := by
  refine ⟨?_, ?_, ?_⟩
  · intro hv
    unfold readResponse
    simp [hv]
  · intro hv hs
    unfold readResponse
    simp [hv, hs, GoErr.render]
  · intro hv hs
    unfold readResponse
    simp [hv, hs]

theorem c7_read_response_witness :
    readResponse (fun s => if s = 5 then "forbidden" else "?") ⟨[2, 0], [], [], 0, "L", "R"⟩
      = (some .badVersion, ⟨[], [], [], 1, "L", "R"⟩) ∧
    readResponse (fun s => if s = 5 then "forbidden" else "?") ⟨[1, 5], [], [], 0, "L", "R"⟩
      = (some (.statusErr 5 "forbidden"), ⟨[], [], [], 1, "L", "R"⟩) ∧
    (GoErr.statusErr 5 "forbidden").render = "5 forbidden" ∧
    readResponse (fun s => if s = 5 then "forbidden" else "?") ⟨[1, 0], [], [], 0, "L", "R"⟩
      = (none, ⟨[], [], [], 1, "L", "R"⟩) := by
  refine ⟨?_, ?_, ?_, ?_⟩
  · exact (c7_read_response (fun s => if s = 5 then "forbidden" else "?")
      2 0 [] [] [] 0 "L" "R").1 (by decide)
  · exact ((c7_read_response (fun s => if s = 5 then "forbidden" else "?")
      1 5 [] [] [] 0 "L" "R").2.1 rfl (by decide)).1
  · exact ((c7_read_response (fun s => if s = 5 then "forbidden" else "?")
      1 5 [] [] [] 0 "L" "R").2.1 rfl (by decide)).2
  · exact (c7_read_response (fun s => if s = 5 then "forbidden" else "?")
      1 0 [] [] [] 0 "L" "R").2.2 rfl rfl

/-- C8: the stream relay connection's Write always reports the full input
length as written, whatever the transport's outcome; and when the
transport write is scripted to fail (accepting only `k` bytes and
returning transport error `ec`), that transport error is still returned
alongside the full count. -/
theorem c8_stream_write_count (c : tcpConn) (b : List Nat)
    (i : List Nat) (out : List (List Nat)) (k ec : Nat)
    (rest : List (Option (Nat × Nat))) (nR : Nat) (l r : String)
    (ow : Option (List Nat)) (o : Bool) :
    (tcpConn.Write c b).1.1 = b.length ∧
    (tcpConn.Write ⟨⟨i, out, some (k, ec) :: rest, nR, l, r⟩, ow, o⟩ b).1
      = (b.length, some (.transport ec)) := by
  constructor
  · rcases c with ⟨t, wb, o'⟩
    cases wb
    · rfl
    · unfold tcpConn.Write
      dsimp only
      split <;> rfl
  · cases ow
    · rfl
    · unfold tcpConn.Write
      dsimp only
      split <;> rfl

/-- C9: the bound connection and bound datagram connection report the
tunnel-assigned addresses fixed at wrap time, independently of the
transport state (its native addresses included); the bound datagram
ReadFrom performs the framed read and reports the tunnel-assigned remote
address as the sender; and WriteTo performs the framed write with a
result identical for any two address arguments and identical to Write. -/
theorem c9_bind_addressing (t t2 : Transport) (l r m l2 r2 m2 : String)
    (blen : Nat) (b : List Nat) (a1 a2 : String) :
    (bindConn.mk t l r m).LocalAddr = l ∧
    (bindConn.mk t l r m).RemoteAddr = r ∧
    (bindUDPConn.mk t2 l2 r2 m2).LocalAddr = l2 ∧
    (bindUDPConn.mk t2 l2 r2 m2).RemoteAddr = r2 ∧
    (bindUDPConn.mk t2 l2 r2 m2).ReadFrom blen
      = ((((bindUDPConn.mk t2 l2 r2 m2).Read blen).1.1, r2,
          ((bindUDPConn.mk t2 l2 r2 m2).Read blen).1.2),
         ((bindUDPConn.mk t2 l2 r2 m2).Read blen).2) ∧
    (bindUDPConn.mk t2 l2 r2 m2).WriteTo b a1
      = (bindUDPConn.mk t2 l2 r2 m2).WriteTo b a2 ∧
    (bindUDPConn.mk t2 l2 r2 m2).WriteTo b a1
      = (bindUDPConn.mk t2 l2 r2 m2).Write b :=
  ⟨rfl, rfl, rfl, rfl, rfl, rfl, rfl⟩

/-- C3: writing a payload `p` of at most 65535 bytes on a fresh datagram
relay connection with no pending header puts exactly the 2-byte
big-endian length of `p` followed by `p` on the transport (as the prefix
write and the payload write, whose concatenation is the claimed byte
sequence), and a framed Read of that wire content into a buffer of size
at least `len(p)` returns `p` with no error. -/
theorem c3_datagram_roundtrip (p rest : List Nat) (hp : p.length ≤ maxUint16)
    (iW : List Nat) (nW : Nat) (lW rW : String) (oW : Bool)
    (statusText : Nat → String) (outR : List (List Nat))
    (wsR : List (Option (Nat × Nat))) (nRr : Nat) (lR rR : String) (oR : Bool)
    (blen : Nat) (hb : p.length ≤ blen) :
    udpConn.Write ⟨⟨iW, [], [], nW, lW, rW⟩, none, oW⟩ p
      = ((p.length, none),
         ⟨⟨iW, [putUint16 p.length, p], [], nW, lW, rW⟩, none, oW⟩) ∧
    [putUint16 p.length, p].flatten = putUint16 p.length ++ p ∧
    udpConn.Read statusText
        ⟨⟨putUint16 p.length ++ p ++ rest, outR, wsR, nRr, lR, rR⟩, none, oR⟩ blen
      = ((p, none), ⟨⟨rest, outR, wsR, nRr, lR, rR⟩, none, true⟩) := by
  refine ⟨?_, by simp, ?_⟩
  · unfold udpConn.Write
    rw [if_neg (by omega)]
    rfl
  · unfold udpConn.Read
    rw [if_neg (by simp)]
    dsimp only
    rw [udpFramedRead_frame p rest _ rfl hp blen]
    rw [Nat.min_eq_right hb, List.take_length]

theorem c3_datagram_roundtrip_witness :
    ([1, 2, 3] : List Nat).length ≤ maxUint16 ∧
    ([1, 2, 3] : List Nat).length ≤ 10 ∧
    udpConn.Write ⟨⟨[], [], [], 0, "L", "R"⟩, none, false⟩ [1, 2, 3]
      = ((3, none), ⟨⟨[], [[0, 3], [1, 2, 3]], [], 0, "L", "R"⟩, none, false⟩) ∧
    udpConn.Read (fun _ => "") ⟨⟨[0, 3, 1, 2, 3], [], [], 0, "L", "R"⟩, none, false⟩ 10
      = (([1, 2, 3], none), ⟨⟨[], [], [], 0, "L", "R"⟩, none, true⟩) := by
  have h := c3_datagram_roundtrip [1, 2, 3] [] (by decide) [] 0 "L" "R" false
    (fun _ => "") [] [] 0 "L" "R" false 10 (by decide)
  exact ⟨by decide, by decide, h.1, h.2.2⟩

/-- C6: a framed read whose incoming frame has length `L` and whose
destination buffer is shorter than `L` consumes the entire frame from
the transport (the following input bytes are next), returns the first
`len(buffer)` bytes of the frame — that is, `min(len(buffer), L)` bytes —
and discards the rest, on both the datagram relay connection and the
bound datagram connection. -/
theorem c6_short_buffer (statusText : Nat → String) (frame rest : List Nat)
    (out : List (List Nat)) (ws : List (Option (Nat × Nat))) (nR : Nat)
    (l r : String) (ow : Option (List Nat)) (l2 r2 m2 : String) (blen : Nat)
    (hL : frame.length ≤ maxUint16) (hb : blen < frame.length) :
    udpConn.Read statusText
        ⟨⟨putUint16 frame.length ++ frame ++ rest, out, ws, nR, l, r⟩, ow, true⟩ blen
      = ((frame.take blen, none), ⟨⟨rest, out, ws, nR, l, r⟩, ow, true⟩) ∧
    (frame.take blen).length = min blen frame.length ∧
    bindUDPConn.Read
        ⟨⟨putUint16 frame.length ++ frame ++ rest, out, ws, nR, l, r⟩, l2, r2, m2⟩ blen
      = ((frame.take blen, none), ⟨⟨rest, out, ws, nR, l, r⟩, l2, r2, m2⟩) := by
  have hmin : min blen frame.length = blen := Nat.min_eq_left (Nat.le_of_lt hb)
  refine ⟨?_, ?_, ?_⟩
  · unfold udpConn.Read
    rw [if_neg (by simp)]
    dsimp only
    rw [udpFramedRead_frame frame rest _ rfl hL blen, hmin]
  · rw [List.length_take, hmin]
  · unfold bindUDPConn.Read
    dsimp only
    rw [udpFramedRead_frame frame rest _ rfl hL blen, hmin]

theorem c6_short_buffer_witness :
    ([10, 11, 12, 13, 14] : List Nat).length ≤ maxUint16 ∧
    2 < ([10, 11, 12, 13, 14] : List Nat).length ∧
    udpConn.Read (fun _ => "")
        ⟨⟨[0, 5, 10, 11, 12, 13, 14, 99], [], [], 0, "L", "R"⟩, none, true⟩ 2
      = (([10, 11], none), ⟨⟨[99], [], [], 0, "L", "R"⟩, none, true⟩) ∧
    bindUDPConn.Read
        ⟨⟨[0, 5, 10, 11, 12, 13, 14, 99], [], [], 0, "L", "R"⟩, "tl", "tr", "md"⟩ 2
      = (([10, 11], none), ⟨⟨[99], [], [], 0, "L", "R"⟩, "tl", "tr", "md"⟩) := by
  have h := c6_short_buffer (fun _ => "") [10, 11, 12, 13, 14] [99] [] [] 0 "L" "R"
    none "tl" "tr" "md" 2 (by decide) (by decide)
  exact ⟨by decide, by decide, h.1, h.2.2⟩

/-- C5: with a non-empty pending header `H` set, the first successful
write of payload `P` makes the transport observe the single contiguous
write `H ++ P` on the stream connection, and `H ++ len(P) ++ P` on the
datagram connection, after which the pending header is empty; a
connection whose pending header is empty writes only its own payload
bytes (no byte of `H`), keeps the header empty, and reads never refill
the header buffer. -/
theorem c5_header_flush (H P b : List Nat) (hH : 0 < H.length)
    (hP : P.length ≤ maxUint16) (hb : b.length ≤ maxUint16)
    (i i2 : List Nat) (out out2 : List (List Nat)) (nR nR2 : Nat)
    (l r l2 r2 : String) (o o2 : Bool) (statusText : Nat → String)
    (t : Transport) (blen : Nat) :
    tcpConn.Write ⟨⟨i, out, [], nR, l, r⟩, some H, o⟩ P
      = ((P.length, none), ⟨⟨i, out ++ [H ++ P], [], nR, l, r⟩, some [], o⟩) ∧
    tcpConn.Write ⟨⟨i2, out2, [], nR2, l2, r2⟩, some [], o2⟩ b
      = ((b.length, none), ⟨⟨i2, out2 ++ [b], [], nR2, l2, r2⟩, some [], o2⟩) ∧
    udpConn.Write ⟨⟨i, out, [], nR, l, r⟩, some H, o⟩ P
      = ((P.length, none),
         ⟨⟨i, out ++ [H ++ putUint16 P.length ++ P], [], nR, l, r⟩, some [], o⟩) ∧
    udpConn.Write ⟨⟨i2, out2, [], nR2, l2, r2⟩, some [], o2⟩ b
      = ((b.length, none),
         ⟨⟨i2, out2 ++ [putUint16 b.length, b], [], nR2, l2, r2⟩, some [], o2⟩) ∧
    (tcpConn.Read statusText ⟨t, some [], o⟩ blen).2.wbuf = some [] ∧
    (udpConn.Read statusText ⟨t, some [], o⟩ blen).2.wbuf = some [] := by
  refine ⟨?_, ?_, ?_, ?_, ?_, ?_⟩
  · unfold tcpConn.Write
    dsimp only
    rw [if_pos hH]
    rfl
  · simp [tcpConn.Write, connWrite]
  · unfold udpConn.Write
    rw [if_neg (by omega)]
    dsimp only
    rw [if_pos hH]
    simp [connWrite, List.drop_length]
  · unfold udpConn.Write
    rw [if_neg (by omega)]
    simp [connWrite]
  · unfold tcpConn.Read
    dsimp only
    split
    · split <;> rfl
    · rfl
  · unfold udpConn.Read
    dsimp only
    split
    · split <;> rfl
    · rfl

theorem c5_header_flush_witness :
    0 < ([8] : List Nat).length ∧
    ([1, 2] : List Nat).length ≤ maxUint16 ∧
    ([3] : List Nat).length ≤ maxUint16 ∧
    tcpConn.Write ⟨⟨[], [], [], 0, "L", "R"⟩, some [8], false⟩ [1, 2]
      = ((2, none), ⟨⟨[], [[8, 1, 2]], [], 0, "L", "R"⟩, some [], false⟩) ∧
    tcpConn.Write ⟨⟨[], [], [], 0, "L", "R"⟩, some [], false⟩ [3]
      = ((1, none), ⟨⟨[], [[3]], [], 0, "L", "R"⟩, some [], false⟩) ∧
    udpConn.Write ⟨⟨[], [], [], 0, "L", "R"⟩, some [8], false⟩ [1, 2]
      = ((2, none), ⟨⟨[], [[8, 0, 2, 1, 2]], [], 0, "L", "R"⟩, some [], false⟩) ∧
    udpConn.Write ⟨⟨[], [], [], 0, "L", "R"⟩, some [], false⟩ [3]
      = ((1, none), ⟨⟨[], [[0, 1], [3]], [], 0, "L", "R"⟩, some [], false⟩) ∧
    (tcpConn.Read (fun _ => "") ⟨⟨[], [], [], 0, "L", "R"⟩, some [], false⟩ 4).2.wbuf
      = some [] ∧
    (udpConn.Read (fun _ => "") ⟨⟨[], [], [], 0, "L", "R"⟩, some [], false⟩ 4).2.wbuf
      = some [] := by
  have h := c5_header_flush [8] [1, 2] [3] (by decide) (by decide) (by decide)
    [] [] [] [] 0 0 "L" "R" "L" "R" false false (fun _ => "")
    ⟨[], [], [], 0, "L", "R"⟩ 4
  exact ⟨by decide, by decide, by decide, h.1, h.2.1, h.2.2.1, h.2.2.2.1,
    h.2.2.2.2.1, h.2.2.2.2.2⟩

/-- C10: on the stream relay connection, a coalesced first write whose
underlying transport write fails (accepting only `k` bytes and returning
transport error `ec`) still empties the pending header buffer — the
transport records only the accepted prefix of `H ++ b`, the error is
returned, yet the header buffer ends empty — and a later write on a
connection with an empty header buffer sends only its own payload
bytes. -/
theorem c10_header_lost_on_error (H b b2 : List Nat) (hH : 0 < H.length)
    (i i2 : List Nat) (out out2 : List (List Nat)) (k ec : Nat)
    (rest : List (Option (Nat × Nat))) (nR nR2 : Nat) (l r l2 r2 : String)
    (o o2 : Bool) :
    tcpConn.Write ⟨⟨i, out, some (k, ec) :: rest, nR, l, r⟩, some H, o⟩ b
      = ((b.length, some (.transport ec)),
         ⟨⟨i, out ++ [(H ++ b).take (min k (H ++ b).length)], rest, nR, l, r⟩,
          some [], o⟩) ∧
    tcpConn.Write ⟨⟨i2, out2, [], nR2, l2, r2⟩, some [], o2⟩ b2
      = ((b2.length, none), ⟨⟨i2, out2 ++ [b2], [], nR2, l2, r2⟩, some [], o2⟩) := by
  constructor
  · unfold tcpConn.Write
    dsimp only
    rw [if_pos hH]
    rfl
  · simp [tcpConn.Write, connWrite]

theorem c10_header_lost_on_error_witness :
    0 < ([9] : List Nat).length ∧
    tcpConn.Write ⟨⟨[], [], [some (1, 42)], 0, "L", "R"⟩, some [9], false⟩ [1, 2]
      = ((2, some (.transport 42)),
         ⟨⟨[], [[9]], [], 0, "L", "R"⟩, some [], false⟩) ∧
    tcpConn.Write ⟨⟨[], [], [], 0, "L", "R"⟩, some [], false⟩ [3]
      = ((1, none), ⟨⟨[], [[3]], [], 0, "L", "R"⟩, some [], false⟩) := by
  have h := c10_header_lost_on_error [9] [1, 2] [3] (by decide)
    [] [] [] [] 1 42 [] 0 0 "L" "R" "L" "R" false false
  exact ⟨by decide, h.1, h.2⟩

/-- C1 counterexample: a stream relay connection whose pending-header
buffer is absent (a nil `wbuf`) never performs the handshake-response
check: on the first Read the `respReads` instrumentation counter stays
at 0 and the raw transport bytes are delivered unchanged, and likewise
for the datagram relay connection — refuting the claim that the check is
performed even when the wrapper has no pending header to send. -/
theorem c1_counterexample :
    (tcpConn.Read (fun _ => "") ⟨⟨[7, 7, 7], [], [], 0, "L", "R"⟩, none, false⟩ 3).1
      = ([7, 7, 7], none) ∧
    (tcpConn.Read (fun _ => "") ⟨⟨[7, 7, 7], [], [], 0, "L", "R"⟩, none, false⟩ 3).2.conn.respReads
      = 0 ∧
    (udpConn.Read (fun _ => "") ⟨⟨[0, 1, 7], [], [], 0, "L", "R"⟩, none, false⟩ 3).2.conn.respReads
      = 0 :=
  ⟨rfl, rfl, rfl⟩

/-- C1 amended: when the pending-header buffer is present (even empty),
the first Read on a stream or datagram relay connection runs the
handshake-response check exactly once (the `respReads` counter advances
by exactly one); when the buffer is absent the check is skipped; after
any Read the once-flag is set, and a Read with the once-flag set never
re-runs the check (the counter stays unchanged), whether the first check
succeeded or failed. -/
theorem c1_once_check_amended (statusText : Nat → String) (t : Transport)
    (w : List Nat) (ow : Option (List Nat)) (blen : Nat) :
    (tcpConn.Read statusText ⟨t, some w, false⟩ blen).2.conn.respReads
      = t.respReads + 1 ∧
    (tcpConn.Read statusText ⟨t, none, false⟩ blen).2.conn.respReads = t.respReads ∧
    (tcpConn.Read statusText ⟨t, ow, false⟩ blen).2.once = true ∧
    (tcpConn.Read statusText ⟨t, ow, true⟩ blen).2.conn.respReads = t.respReads ∧
    (tcpConn.Read statusText ⟨t, ow, true⟩ blen).2.once = true ∧
    (udpConn.Read statusText ⟨t, some w, false⟩ blen).2.conn.respReads
      = t.respReads + 1 ∧
    (udpConn.Read statusText ⟨t, none, false⟩ blen).2.conn.respReads = t.respReads ∧
    (udpConn.Read statusText ⟨t, ow, false⟩ blen).2.once = true ∧
    (udpConn.Read statusText ⟨t, ow, true⟩ blen).2.conn.respReads = t.respReads ∧
    (udpConn.Read statusText ⟨t, ow, true⟩ blen).2.once = true := by
  have hc := readResponse_respReads statusText t
  refine ⟨?_, ?_, ?_, ?_, ?_, ?_, ?_, ?_, ?_, ?_⟩
  · unfold tcpConn.Read
    dsimp only
    rw [if_pos (by simp)]
    rcases hr : readResponse statusText t with ⟨e, t'⟩
    rw [hr] at hc
    cases e
    · dsimp only
      rw [connRead_respReads]
      exact hc
    · exact hc
  · unfold tcpConn.Read
    rw [if_neg (by simp)]
    dsimp only
    exact connRead_respReads t blen
  · unfold tcpConn.Read
    dsimp only
    split
    · split <;> rfl
    · rfl
  · unfold tcpConn.Read
    rw [if_neg (by simp)]
    dsimp only
    exact connRead_respReads t blen
  · unfold tcpConn.Read
    rw [if_neg (by simp)]
  · unfold udpConn.Read
    dsimp only
    rw [if_pos (by simp)]
    rcases hr : readResponse statusText t with ⟨e, t'⟩
    rw [hr] at hc
    cases e
    · dsimp only
      rw [udpFramedRead_respReads]
      exact hc
    · exact hc
  · unfold udpConn.Read
    rw [if_neg (by simp)]
    dsimp only
    exact udpFramedRead_respReads t blen
  · unfold udpConn.Read
    dsimp only
    split
    · split <;> rfl
    · rfl
  · unfold udpConn.Read
    rw [if_neg (by simp)]
    dsimp only
    exact udpFramedRead_respReads t blen
  · unfold udpConn.Read
    rw [if_neg (by simp)]
